import Mathlib

/-!
# Verification of the ledger-scrolls chain-reading engine

A shallow embedding, in Lean 4, of the core of the `p2p-viewer/lsview`
package of the ledger-scrolls repository: the MUX codec
(`lsview/n2n_client.py`), the block parser (`lsview/block_parser.py`),
the CIP-25 extractor (`lsview/scrolls/cip25.py`), the scroll
reconstruction engine (`lsview/scrolls/reconstruct.py`) and the
inline-datum command core (`lsview/cli.py`).

Machine bytes are modelled as `Nat` with explicit `% 256` / `% 2 ^ 16` /
`% 2 ^ 32` arithmetic where the source masks.  Decoded CBOR values (the
output of `cbor2.loads`) are modelled by the inductive `Cbor`; Python
`None` is `Cbor.null`.  Library primitives that live outside the
repository (`cbor2.loads`/`dumps`, `hashlib.sha256`/`blake2b`,
`gzip.decompress`, `bytes.decode("utf-8")`, `str(...)` rendering) are
collected in a `Runtime` record and passed as parameters; every embedded
function is executable once a concrete `Runtime` is supplied.
-/

set_option maxHeartbeats 1000000
set_option linter.unusedVariables false

namespace LedgerScrolls

/-- Decoded CBOR values as produced by `cbor2.loads`.  `null` doubles as
Python `None` (which is exactly what `cbor2` decodes CBOR null to). -/
inductive Cbor where
  | int (n : Int)
  | bytes (b : List Nat)
  | text (s : String)
  | arr (l : List Cbor)
  | map (l : List (Cbor × Cbor))
  | tag (n : Nat) (v : Cbor)
  | bool (b : Bool)
  | null

/-- External library primitives used by the source but defined outside the
repository.  Modelling them as parameters keeps the embedding faithful to
the code while leaving the library semantics abstract. -/
structure Runtime where
  /-- `cbor2.loads`; `none` models a raised decode exception. -/
  cborLoads : List Nat → Option Cbor
  /-- `cbor2.dumps(v, canonical=True)`. -/
  cborDumpsCanonical : Cbor → List Nat
  /-- `hashlib.sha256(b).hexdigest()`. -/
  sha256_hex : List Nat → String
  /-- `hashlib.blake2b(b, digest_size=32).hexdigest()`. -/
  blake2b_hex : List Nat → String
  /-- `gzip.decompress`; `none` models a raised gzip error. -/
  gunzip : List Nat → Option (List Nat)
  /-- `b.decode("utf-8")`; `none` models a `UnicodeDecodeError`. -/
  utf8Decode : List Nat → Option String
  /-- Python `str(v)` for values that are neither `str`, `bytes` nor `None`
  (used only in the `_as_str` fallback of `cip25.py`). -/
  pyStr : Cbor → String
  /-- Python `str.lower()` (Unicode case mapping lives outside the repo). -/
  strLower : String → String

/-- Python truthiness of a decoded CBOR value. -/
def pyTruthy : Cbor → Bool
  | .int n => n != 0
  | .bytes b => !b.isEmpty
  | .text s => s ≠ ""
  | .arr l => !l.isEmpty
  | .map l => !l.isEmpty
  | .tag _ _ => true
  | .bool b => b
  | .null => false

/-- Python `a or b` over optional values: a missing key (`none`) and a
falsy value both fall through to `b`. -/
def pyOr (a b : Option Cbor) : Option Cbor :=
  match a with
  | some v => if pyTruthy v then some v else b
  | none => b

/-- Collapse a stored CBOR `null` to `none`: decoded CBOR null *is*
Python `None`, so an `is None` test in the source sees it as absent. -/
def asPyNone : Option Cbor → Option Cbor
  | some .null => none
  | x => x

/-- `bytes.hex()`. -/
def hexStr (b : List Nat) : String :=
  String.join (b.map (fun n =>
    let hi := n / 16 % 16
    let lo := n % 16
    let c := fun (d : Nat) => if d < 10 then Char.ofNat (48 + d) else Char.ofNat (87 + d)
    String.mk [c hi, c lo]))

/-! ## MUX codec (`lsview/n2n_client.py`, `mux_encode` / `mux_decode_header`)

The source packs the header with `struct.pack(">IHH", timestamp & 0xFFFFFFFF,
mp & 0xFFFF, len(payload) & 0xFFFF)` where
`mp = ((protocol_id & 0x7FFF) << 1) | (0 if initiator else 1)`. -/

/-- Big-endian 2-byte encoding of `n % 2 ^ 16` (the `H` of `struct.pack`). -/
def beBytes2 (n : Nat) : List Nat :=
  [n / 256 % 256, n % 256]

/-- Big-endian 4-byte encoding of `n % 2 ^ 32` (the `I` of `struct.pack`). -/
def beBytes4 (n : Nat) : List Nat :=
  [n / 2 ^ 24 % 256, n / 2 ^ 16 % 256, n / 2 ^ 8 % 256, n % 256]

/-- Big-endian 2-byte decoding (the `H` of `struct.unpack`). -/
def beNat2 (b0 b1 : Nat) : Nat := b0 * 256 + b1

/-- Big-endian 4-byte decoding (the `I` of `struct.unpack`). -/
def beNat4 (b0 b1 b2 b3 : Nat) : Nat := ((b0 * 256 + b1) * 256 + b2) * 256 + b3

/-- `mux_encode(protocol_id, payload, initiator, timestamp)`: an 8-byte
header followed by the whole payload.  The source performs no splitting;
the length field is `len(payload) & 0xFFFF`. -/
def mux_encode (protocol_id : Nat) (payload : List Nat)
    (initiator : Bool := true) (timestamp : Nat := 0) : List Nat :=
  let mp := (protocol_id % 2 ^ 15) * 2 + (if initiator then 0 else 1)
  beBytes4 (timestamp % 2 ^ 32) ++ beBytes2 (mp % 2 ^ 16)
    ++ beBytes2 (payload.length % 2 ^ 16) ++ payload

/-- `mux_decode_header(header)`: `(timestamp, proto_id, initiator, length)`;
`none` models the `ValueError` raised on a header that is not 8 bytes. -/
def mux_decode_header (header : List Nat) : Option (Nat × Nat × Bool × Nat) :=
  match header with
  | [t0, t1, t2, t3, m0, m1, l0, l1] =>
    let mp := beNat2 m0 m1
    some (beNat4 t0 t1 t2 t3, mp / 2 % 2 ^ 15, mp % 2 == 0, beNat2 l0 l1)
  | _ => none

theorem mux_encode_def (pid : Nat) (payload : List Nat) (i : Bool) (t : Nat) :
    mux_encode pid payload i t =
      beBytes4 (t % 2 ^ 32)
        ++ beBytes2 (((pid % 2 ^ 15) * 2 + (if i then 0 else 1)) % 2 ^ 16)
        ++ beBytes2 (payload.length % 2 ^ 16) ++ payload := rfl

theorem mux_encode_length (pid : Nat) (payload : List Nat) (i : Bool) (t : Nat) :
    (mux_encode pid payload i t).length = 8 + payload.length := by
  simp [mux_encode, beBytes4, beBytes2]
  omega

theorem mux_encode_drop8 (pid : Nat) (payload : List Nat) (i : Bool) (t : Nat) :
    (mux_encode pid payload i t).drop 8 = payload := by
  simp [mux_encode, beBytes4, beBytes2]

theorem mux_encode_take8 (pid : Nat) (payload : List Nat) (i : Bool) (t : Nat) :
    (mux_encode pid payload i t).take 8 =
      beBytes4 (t % 2 ^ 32)
        ++ beBytes2 (((pid % 2 ^ 15) * 2 + (if i then 0 else 1)) % 2 ^ 16)
        ++ beBytes2 (payload.length % 2 ^ 16) := by
  simp [mux_encode, beBytes4, beBytes2]

theorem mux_decode_header_encode (pid : Nat) (payload : List Nat) (hpid : pid < 2 ^ 15) :
    mux_decode_header ((mux_encode pid payload true 0).take 8) =
      some (0, pid, true, payload.length % 2 ^ 16) := by
  rw [mux_encode_take8]
  simp only [beBytes4, beBytes2, List.cons_append, List.nil_append, mux_decode_header,
    beNat2, beNat4, if_true, Option.some.injEq, Prod.mk.injEq, beq_iff_eq]
  refine ⟨by omega, by omega, by omega, by omega⟩

/-! ## CIP-25 extractor (`lsview/scrolls/cip25.py`) -/

/-- `Cip25Asset` of `cip25.py`: the field map has string keys (the source
builds it as `{str(k): v ...}`), modelled as an association list whose
first binding for a key is the one `dict.get` returns. -/
structure Cip25Asset where
  policy_id : String
  asset_name : String
  fields : List (String × Cbor)

/-- `Cip25Page` of `cip25.py`. -/
structure Cip25Page where
  asset : Cip25Asset
  index : Option Int
  total : Option Int
  payload_segments : List (List Nat)

/-- `Cip25Manifest` of `cip25.py`. -/
structure Cip25Manifest where
  asset : Cip25Asset
  codec : Option String
  content_type : Option String
  total_pages : Option Int
  sha256 : Option String
  sha256_gz : Option String

/-- `a.fields.get(k)`: `none` when the key is absent. -/
def fieldsGet (fields : List (String × Cbor)) (k : String) : Option Cbor :=
  (fields.find? (fun p => p.1 == k)).map (·.2)

/-- `_as_int` of `cip25.py`.  `isinstance(v, int)` is true of Python bools
as well; `str.isdigit` is modelled on ASCII digits. -/
def as_int : Option Cbor → Option Int
  | some (.int n) => some n
  | some (.bool b) => some (if b then 1 else 0)
  | some (.text s) => if s ≠ "" ∧ s.all Char.isDigit then some (s.toNat!) else none
  | _ => none

/-- `_as_str` of `cip25.py`.  A `bytes` value decodes as UTF-8 with a hex
fallback; other non-string values go through Python `str(...)`. -/
def as_str (rt : Runtime) : Option Cbor → Option String
  | none => none
  | some .null => none
  | some (.text s) => some s
  | some (.bytes b) => some ((rt.utf8Decode b).getD (hexStr b))
  | some v => some (rt.pyStr v)

/-- The value of a single hex digit, `none` for a non-hex character. -/
def hexDigit? (c : Char) : Option Nat :=
  if '0' ≤ c ∧ c ≤ '9' then some (c.toNat - 48)
  else if 'a' ≤ c ∧ c ≤ 'f' then some (c.toNat - 87)
  else if 'A' ≤ c ∧ c ≤ 'F' then some (c.toNat - 55)
  else none

/-- CPython `bytes.fromhex`: pairs of hex digits, spaces allowed between
pairs (and at the ends) but not inside a pair; anything else — including a
`0x` prefix or an odd trailing digit — raises, modelled as `none`. -/
def fromhexAux : List Char → Option (List Nat)
  | [] => some []
  | ' ' :: cs => fromhexAux cs
  | c :: d :: cs =>
    match hexDigit? c, hexDigit? d with
    | some hi, some lo => (fromhexAux cs).map (fun r => (hi * 16 + lo) :: r)
    | _, _ => none
  | [_] => none

/-- `bytes.fromhex(s)`. -/
def bytes_fromhex (s : String) : Option (List Nat) :=
  fromhexAux s.data

/-- One element of a `payload` list in `classify_assets`: raw bytes pass
through, strings go through `bytes.fromhex` inside a `try`-block whose
`except` clause silently drops the element, and anything else is skipped
by falling out of the `isinstance` chain. -/
def seg_decode : Cbor → Option (List Nat)
  | .bytes b => some b
  | .text s => bytes_fromhex s
  | _ => none

/-- The key set whose presence makes an asset a manifest in
`classify_assets` (checked only when no manifest name was supplied). -/
def manifest_keys : List String :=
  ["codec", "content_type", "content-type", "sha256", "sha", "sha256_gz", "sha_gz"]

/-- The manifest test of `classify_assets`:
`if manifest_asset and a.asset_name == manifest_asset: ... elif manifest_asset is None: if any(k in a.fields ...)`.
A supplied manifest name must be truthy (non-empty) for the first branch,
and the key-based test runs only when no name was supplied at all. -/
def is_manifest_check (manifest_asset : Option String) (a : Cip25Asset) : Bool :=
  match manifest_asset with
  | some m => m ≠ "" && a.asset_name == m
  | none => manifest_keys.any (fun k => (fieldsGet a.fields k).isSome)

/-- The manifest record built by the manifest branch of `classify_assets`. -/
def build_manifest (rt : Runtime) (a : Cip25Asset) : Cip25Manifest :=
  { asset := a
    codec := as_str rt (fieldsGet a.fields "codec")
    content_type :=
      as_str rt (pyOr (fieldsGet a.fields "content_type") (fieldsGet a.fields "content-type"))
    total_pages :=
      as_int (pyOr (fieldsGet a.fields "n")
        (pyOr (fieldsGet a.fields "pages") (fieldsGet a.fields "total_pages")))
    sha256 := as_str rt (pyOr (fieldsGet a.fields "sha256") (fieldsGet a.fields "sha"))
    sha256_gz := as_str rt (pyOr (fieldsGet a.fields "sha256_gz") (fieldsGet a.fields "sha_gz")) }

/-- The page record built by the page branch of `classify_assets`.  Note
the Python `or`-chains: a present but falsy value (`0`, `""`, `[]`) falls
through to the next key. -/
def build_page (a : Cip25Asset) : Cip25Page :=
  let idx := as_int (pyOr (fieldsGet a.fields "i")
    (pyOr (fieldsGet a.fields "index") (fieldsGet a.fields "page")))
  let total := as_int (pyOr (fieldsGet a.fields "n")
    (pyOr (fieldsGet a.fields "total") (fieldsGet a.fields "pages")))
  let payload := pyOr (fieldsGet a.fields "payload")
    (pyOr (fieldsGet a.fields "segments") (fieldsGet a.fields "seg"))
  let segs : List (List Nat) :=
    match payload with
    | some (.arr items) => items.filterMap seg_decode
    | some (.text s) =>
      match bytes_fromhex s with
      | some b => [b]
      | none => []
    | _ => []
  { asset := a, index := idx, total := total, payload_segments := segs }

/-- `classify_assets(assets, manifest_asset)`: pages in input order, and
the manifest from the *last* asset that passed the manifest test (each
match reassigns `manifest`). -/
def classify_assets (rt : Runtime) (assets : List Cip25Asset)
    (manifest_asset : Option String) : List Cip25Page × Option Cip25Manifest :=
  assets.foldl
    (fun acc a =>
      if is_manifest_check manifest_asset a then
        (acc.1, some (build_manifest rt a))
      else
        (acc.1 ++ [build_page a], acc.2))
    ([], none)

/-! ## Page ordering (`sort_pages` of `cip25.py`)

The source sorts with `key(p) = (0, p.index)` for indexed pages and
`(1, p.asset.asset_name)` for unindexed ones, under Python's *stable*
`sorted`.  The key is modelled as `Int ⊕ String` with indexed keys below
all name keys, and the stable sort as Mathlib's `List.insertionSort`,
which is stable for the same preorder and therefore produces exactly the
list Python's stable sort produces. -/

/-- The sort key of `sort_pages`. -/
def page_key (p : Cip25Page) : Int ⊕ String :=
  match p.index with
  | some i => .inl i
  | none => .inr p.asset.asset_name

/-- Order on sort keys: `(0, index)` tuples compare among themselves by
index, `(1, name)` tuples by name, and every indexed key precedes every
name key (first tuple component). -/
def keyLe : Int ⊕ String → Int ⊕ String → Prop
  | .inl i, .inl j => i ≤ j
  | .inl _, .inr _ => True
  | .inr _, .inl _ => False
  | .inr s, .inr t => s ≤ t

instance : DecidableRel keyLe := fun a b =>
  match a, b with
  | .inl i, .inl j => inferInstanceAs (Decidable (i ≤ j))
  | .inl _, .inr _ => inferInstanceAs (Decidable True)
  | .inr _, .inl _ => inferInstanceAs (Decidable False)
  | .inr s, .inr t => inferInstanceAs (Decidable (s ≤ t))

/-- The page ordering used by `sort_pages`. -/
def pageLe (p q : Cip25Page) : Prop := keyLe (page_key p) (page_key q)

instance : DecidableRel pageLe := fun p q =>
  inferInstanceAs (Decidable (keyLe (page_key p) (page_key q)))

instance : IsTotal (Int ⊕ String) keyLe where
  total a b := by
    cases a with
    | inl i =>
      cases b with
      | inl j => exact (le_total i j).imp id id
      | inr t => exact Or.inl trivial
    | inr s =>
      cases b with
      | inl j => exact Or.inr trivial
      | inr t => exact (le_total s t).imp id id

instance : IsTrans (Int ⊕ String) keyLe where
  trans a b c hab hbc := by
    cases a <;> cases b <;> cases c <;>
      simp_all [keyLe] <;> exact le_trans hab hbc

instance : IsTotal Cip25Page pageLe where
  total p q := IsTotal.total (r := keyLe) (page_key p) (page_key q)

instance : IsTrans Cip25Page pageLe where
  trans p q r := IsTrans.trans (r := keyLe) (page_key p) (page_key q) (page_key r)

/-- `sort_pages(pages)`: Python's stable `sorted` under the key above,
modelled by the (stable) insertion sort. -/
def sort_pages (pages : List Cip25Page) : List Cip25Page :=
  List.insertionSort pageLe pages

/-! ## Scroll reconstruction (`lsview/scrolls/reconstruct.py`) -/

/-- `ReconstructedFile` of `reconstruct.py`. -/
structure ReconstructedFile where
  filename : String
  content_type : Option String
  codec : Option String
  raw_bytes : List Nat
  sha256 : String

/-- The exceptions `reconstruct_cip25` can raise: a gzip decompression
failure escaping `gzip.decompress`, or one of its two `ValueError`s. -/
inductive RErr where
  | gzipFailed
  | integrityGz
  | integrityDecoded
deriving DecidableEq

/-- `reconstruct_pages(pages)`: sort, then concatenate every segment of
every page in order.  The source performs no duplicate-index detection;
the function is total and always returns bytes. -/
def reconstruct_pages (pages : List Cip25Page) : List Nat :=
  ((sort_pages pages).map (fun p => p.payload_segments.flatten)).flatten

/-- `len(b) >= 2 and b[0] == 0x1F and b[1] == 0x8B`. -/
def gzip_magic : List Nat → Bool
  | b0 :: b1 :: _ => b0 == 0x1F && b1 == 0x8B
  | _ => false

/-- `maybe_gunzip(b, codec)` of `reconstruct.py`. -/
def maybe_gunzip (rt : Runtime) (b : List Nat) (codec : Option String) :
    Except RErr (List Nat × Option String) :=
  match codec with
  | none =>
    if gzip_magic b then
      match rt.gunzip b with
      | some d => .ok (d, some "gzip")
      | none => .error .gzipFailed
    else .ok (b, none)
  | some c =>
    if rt.strLower c = "gzip" then
      match rt.gunzip b with
      | some d => .ok (d, some "gzip")
      | none => .error .gzipFailed
    else .ok (b, some c)

/-- Truthiness of an optional string field of a manifest: present and
non-empty (Python `if manifest.sha256_gz:`). -/
def optStrTruthy : Option String → Bool
  | some s => s ≠ ""
  | none => false

/-- `reconstruct_cip25(pages, manifest, out_name)`.  Faithful to the
source's order of operations: the pages are concatenated, `maybe_gunzip`
runs *first*, and only then are the `sha256_gz` (against the concatenated
bytes) and `sha256` (against the decoded bytes) assertions checked. -/
def reconstruct_cip25 (rt : Runtime) (pages : List Cip25Page)
    (manifest : Option Cip25Manifest) (out_name : String) :
    Except RErr ReconstructedFile :=
  match maybe_gunzip rt (reconstruct_pages pages) (manifest.bind Cip25Manifest.codec) with
  | .error e => .error e
  | .ok (decoded, codec_used) =>
    if optStrTruthy (manifest.bind Cip25Manifest.sha256_gz) &&
        rt.sha256_hex (reconstruct_pages pages) !=
          rt.strLower ((manifest.bind Cip25Manifest.sha256_gz).getD "") then
      .error .integrityGz
    else if optStrTruthy (manifest.bind Cip25Manifest.sha256) &&
        rt.sha256_hex decoded !=
          rt.strLower ((manifest.bind Cip25Manifest.sha256).getD "") then
      .error .integrityDecoded
    else
      .ok { filename := out_name, content_type := manifest.bind Cip25Manifest.content_type,
            codec := codec_used, raw_bytes := decoded, sha256 := rt.sha256_hex decoded }

/-! ## Block parser (`lsview/block_parser.py`) -/

/-- `ParsedTx` of `block_parser.py`; the metadata map has the integer
labels as keys. -/
structure ParsedTx where
  index : Nat
  metadata : List (Int × Cbor)

/-- `ParsedBlock` of `block_parser.py`.  Note: it has no field retaining
the raw CBOR. -/
structure ParsedBlock where
  era : Option Int
  txs : List ParsedTx
  tx_bodies : List Cbor

/-- The two exceptions observable from `parse_block`: a CBOR decode
failure escaping `safe_cbor_loads`, and the parser's own
`ValueError("unrecognized block structure")`. -/
inductive PBErr where
  | cborError
  | unrecognized
deriving DecidableEq

/-- `_unwrap_cbor` of `block_parser.py`: descend through one level of
bytes (re-decoding, keeping the bytes on failure) or one CBOR tag (whose
bytes payload is likewise re-decoded). -/
def unwrap_cbor (rt : Runtime) : Cbor → Cbor
  | .bytes b =>
    match rt.cborLoads b with
    | some v => v
    | none => .bytes b
  | .tag _ v =>
    match v with
    | .bytes b =>
      match rt.cborLoads b with
      | some u => u
      | none => .bytes b
    | w => w
  | o => o

/-- Keys of a metadata mapping coerced to integers, non-integer keys
dropped (`{int(k): v for k, v in m.items() if isinstance(k, int)}`;
Python bools are ints). -/
def intKeys (mm : List (Cbor × Cbor)) : List (Int × Cbor) :=
  mm.filterMap (fun p =>
    match p.1 with
    | .int n => some (n, p.2)
    | .bool b => some ((if b then 1 else 0 : Int), p.2)
    | _ => none)

/-- The list/dict shape analysis at the end of `_extract_metadata_map`. -/
def metaOf : Cbor → List (Int × Cbor)
  | .arr (m :: _) =>
    match m with
    | .map mm => intKeys mm
    | _ => []
  | .map mm => intKeys mm
  | _ => []

/-- `_extract_metadata_map(aux)`: `None` gives `{}`; bytes are re-decoded
(failure gives `{}`); then the first element of a non-empty list, or the
mapping itself, has its integer-keyed entries extracted. -/
def extract_metadata_map (rt : Runtime) : Option Cbor → List (Int × Cbor)
  | none => []
  | some aux0 =>
    match aux0 with
    | .bytes b =>
      match rt.cborLoads b with
      | none => []
      | some aux1 => metaOf aux1
    | _ => metaOf aux0

/-- `aux_map.get(i)` for a Python integer `i`: the first binding whose key
is the integer `i`. -/
def assocGetInt (m : List (Cbor × Cbor)) (i : Nat) : Option Cbor :=
  (m.find? (fun p =>
    match p.1 with
    | .int n => n == (i : Int)
    | _ => false)).map (·.2)

/-- The block-location prefix of `parse_block`: era detection and the
`[era, block]` unwrap, before the single-element-list unwrap.  A `none`
block is Python `None` there. -/
def locate_block (rt : Runtime) (obj : Cbor) : Option Int × Option Cbor :=
  match obj with
  | .arr (x :: rest) =>
    match x with
    | .int e => (some e, asPyNone ((rest.head?).map (unwrap_cbor rt)))
    | .bool bb => (some (if bb then 1 else 0), asPyNone ((rest.head?).map (unwrap_cbor rt)))
    | _ => (none, some obj)
  | _ => (none, none)

/-- `locate_block` followed by the `[block]` single-element unwrap. -/
def locate_block2 (rt : Runtime) (obj : Cbor) : Option Int × Option Cbor :=
  let eb := locate_block rt obj
  match eb.2 with
  | some (.arr [y]) => (eb.1, asPyNone (some y))
  | _ => eb

/-- The `tx_bodies` extraction of `parse_block`. -/
def block_tx_bodies : Cbor → List Cbor
  | .arr l =>
    if l.length ≥ 2 then
      match l[1]? with
      | some (Cbor.arr t) => t
      | _ => []
    else []
  | _ => []

/-- The `aux_map` extraction of `parse_block`: index 3 when the block has
four elements and a mapping there, else index 2, else `{}`. -/
def block_aux_map : Cbor → List (Cbor × Cbor)
  | .arr l =>
    if l.length ≥ 2 then
      if l.length ≥ 4 then
        match l[3]? with
        | some (Cbor.map m) => m
        | _ =>
          match l[2]? with
          | some (Cbor.map m2) => m2
          | _ => []
      else if l.length ≥ 3 then
        match l[2]? with
        | some (Cbor.map m2) => m2
        | _ => []
      else []
    else []
  | _ => []

/-- The body of `parse_block` after `safe_cbor_loads` has succeeded. -/
def parse_blockAux (rt : Runtime) (obj0 : Cbor) : Except PBErr ParsedBlock :=
  match (locate_block2 rt (unwrap_cbor rt obj0)).2 with
  | none => .error .unrecognized
  | some block =>
    .ok { era := (locate_block2 rt (unwrap_cbor rt obj0)).1
          txs := (List.range (block_tx_bodies block).length).map (fun i =>
            { index := i
              metadata :=
                extract_metadata_map rt (asPyNone (assocGetInt (block_aux_map block) i)) })
          tx_bodies := block_tx_bodies block }

/-- `parse_block(block_body_cbor)`.  `Except.error .cborError` models an
exception escaping `safe_cbor_loads`; `Except.error .unrecognized` is the
parser's own `ValueError("unrecognized block structure")`. -/
def parse_block (rt : Runtime) (raw : List Nat) : Except PBErr ParsedBlock :=
  match rt.cborLoads raw with
  | none => .error .cborError
  | some obj0 => parse_blockAux rt obj0

/-! ## Inline-datum command core (`lsview/cli.py`) -/

/-- Python `list(v)` as used by `_extract_outputs`: sequences enumerate
their elements (bytes to ints, strings to characters, dicts to keys);
a non-iterable raises `TypeError`, modelled as `Except.error`. -/
def pyListOf : Cbor → Except String (List Cbor)
  | .arr l => .ok l
  | .bytes b => .ok (b.map (fun n => .int n))
  | .text s => .ok (s.data.map (fun c => .text (String.mk [c])))
  | .map m => .ok (m.map (·.1))
  | _ => .error "TypeError: not iterable"

/-- `_extract_outputs(tx_body)` of `cli.py`. -/
def extract_outputs (tx_body : Cbor) : Except String (List Cbor) :=
  match tx_body with
  | .map m =>
    match asPyNone (assocGetInt m 1) with
    | some v => if pyTruthy v then pyListOf v else .ok []
    | none => .ok []
  | .arr l =>
    if l.length > 1 then
      match l[1]? with
      | some v => pyListOf v
      | none => .ok []
    else .ok []
  | _ => .ok []

/-- `_extract_inline_datum(output)` of `cli.py`: pick the third list
element (or dict key `2`); unwrap an inline-datum pair `[2, d]`; and for
bytes, return the CBOR-decoded inner bytes when the decode yields bytes,
the raw bytes otherwise.  Non-bytes results give `None`. -/
def extract_inline_datum (rt : Runtime) (output : Cbor) : Option (List Nat) :=
  let datum0 : Option Cbor :=
    match output with
    | .arr l => if l.length ≥ 3 then l[2]? else none
    | .map m => assocGetInt m 2
    | _ => none
  match asPyNone datum0 with
  | none => none
  | some datum =>
    let datum2 : Option Cbor :=
      match datum with
      | .arr (t :: x :: _) =>
        match t with
        | .int 2 => some x
        | _ => none
      | d => some d
    match datum2 with
    | none => none
    | some (.bytes b) =>
      match rt.cborLoads b with
      | some (.bytes inner) => some inner
      | _ => some b
    | some _ => none

/-- `_tx_hash_from_body(tx_body)` of `cli.py`:
`blake2b_256(cbor2.dumps(tx_body, canonical=True)).hex()`. -/
def tx_hash_from_body (rt : Runtime) (tb : Cbor) : String :=
  rt.blake2b_hex (rt.cborDumpsCanonical tb)

/-- The body of `cmd_reconstruct_utxo` from the point the block has been
fetched and parsed: transaction selection, output selection, inline-datum
extraction, and the final write.  On success the returned pair is the
bytes written to `args.out` together with the digest printed under the
label `SHA-256:` — which the source computes with `blake2b_256_hex`, not
SHA-256 — see `Runtime.blake2b_hex`.  The catalog entry's `sha256` field is accepted as an argument
but — exactly as in the source, which never reads `entry.data["sha256"]`
— it is not consulted anywhere. -/
def cmd_reconstruct_utxo_core (rt : Runtime) (entry_sha256 : Option String)
    (block : ParsedBlock) (tx_hash : Option String) (tx_ix : Nat) :
    Except String (List Nat × String) :=
  let target_hash := tx_hash.map (fun s => rt.strLower s)
  let found := block.tx_bodies.find? (fun tb =>
    match target_hash with
    | some th => tx_hash_from_body rt tb == th
    | none => true)
  match found with
  | none => .error "Transaction not found in block."
  | some tx_body =>
    match extract_outputs tx_body with
    | .error e => .error e
    | .ok outputs =>
      if h : tx_ix < outputs.length then
        match extract_inline_datum rt (outputs.get ⟨tx_ix, h⟩) with
        | none => .error "No inline datum bytes found at that tx output."
        | some datum_bytes => .ok (datum_bytes, rt.blake2b_hex datum_bytes)
      else .error "tx output index out of range for this transaction."

/-! ## Concrete runtimes for witnesses and counterexamples -/

/-- A concrete runtime whose CBOR decoder and gzip always fail and whose
hash functions are constant; enough to exercise the control flow. -/
def rtFail : Runtime where
  cborLoads := fun _ => none
  cborDumpsCanonical := fun _ => []
  sha256_hex := fun _ => "00"
  blake2b_hex := fun _ => "b2"
  gunzip := fun _ => none
  utf8Decode := fun _ => none
  pyStr := fun _ => ""
  strLower := fun s => s

/-- A runtime whose CBOR decoder recognizes exactly the byte string `[7]`,
decoding it to the integer `7`. -/
def rtInt7 : Runtime :=
  { rtFail with cborLoads := fun b => if b = [7] then some (.int 7) else none }

/-- A runtime whose CBOR decoder recognizes exactly the byte string `[1]`,
decoding it to the one-element array `["x"]`. -/
def rtArrX : Runtime :=
  { rtFail with cborLoads := fun b => if b = [1] then some (.arr [.text "x"]) else none }

/-! ## Sorting lemmas: stability of `sort_pages` -/

theorem keyLe_refl (x : Int ⊕ String) : keyLe x x := by
  cases x <;> simp [keyLe]

/-- Inserting a page leaves every key class of the list in place, with the
inserted page in front of its own class: the elements skipped by
`orderedInsert` all have strictly smaller keys. -/
theorem key_filter_orderedInsert (p : Cip25Page) (k : Int ⊕ String) (l : List Cip25Page) :
    (List.orderedInsert pageLe p l).filter (fun q => decide (page_key q = k)) =
      (p :: l).filter (fun q => decide (page_key q = k)) := by
  induction l with
  | nil => rfl
  | cons b bs ih =>
    simp only [List.orderedInsert]
    by_cases hpb : pageLe p b
    · rw [if_pos hpb]
    · rw [if_neg hpb]
      by_cases hbk : page_key b = k
      · have hpk : page_key p ≠ k := by
          intro hpk
          exact hpb (show keyLe (page_key p) (page_key b) by rw [hpk, hbk]; exact keyLe_refl k)
        simp only [List.filter_cons, decide_eq_true_eq, hbk, if_pos rfl, ih, hpk,
          if_neg (by simpa using hpk)]
        simp [hpk]
      · simp only [List.filter_cons, decide_eq_true_eq, ih]
        by_cases hpk : page_key p = k <;> simp [hbk, hpk]

/-- Stability of `sort_pages`: within each key class the sorted list keeps
the input order (this is the guarantee Python's stable `sorted` gives). -/
theorem key_filter_sort_pages (l : List Cip25Page) (k : Int ⊕ String) :
    (sort_pages l).filter (fun q => decide (page_key q = k)) =
      l.filter (fun q => decide (page_key q = k)) := by
  unfold sort_pages
  induction l with
  | nil => rfl
  | cons a l ih =>
    simp only [List.insertionSort]
    rw [key_filter_orderedInsert]
    simp only [List.filter_cons, ih]

/-! ## Claims about the MUX codec -/

/-- Claim C7: for every 15-bit protocol id and every payload of at most
12288 bytes, decoding the 8-byte header of the encoded frame recovers the
protocol id, the initiator mode and a length field equal to the payload
length, and the frame body after the header is exactly the payload. -/
theorem C7_mux_roundtrip (pid : Nat) (payload : List Nat)
    (hpid : pid < 2 ^ 15) (hlen : payload.length ≤ 12288) :
    mux_decode_header ((mux_encode pid payload true 0).take 8) =
      some (0, pid, true, payload.length) ∧
    (mux_encode pid payload true 0).drop 8 = payload := by
  constructor
  · rw [mux_decode_header_encode pid payload hpid, Nat.mod_eq_of_lt (by omega)]
  · exact mux_encode_drop8 pid payload true 0

/-- Witness for C7 at protocol id 2 and the one-byte payload `[0xAB]`. -/
theorem C7_mux_roundtrip_witness :
    mux_decode_header ((mux_encode 2 [171] true 0).take 8) = some (0, 2, true, 1) ∧
    (mux_encode 2 [171] true 0).drop 8 = [171] :=
  C7_mux_roundtrip 2 [171] (by decide) (by decide)

/-- Counterexample to claim C8: a payload of 12289 bytes produces a
*single* frame — the output is one 8-byte header followed by the whole
payload, 12297 bytes in total, whereas two consecutive frames would be at
least 12305 bytes with a second header interrupting the payload. -/
theorem C8_counterexample :
    (mux_encode 2 (List.replicate 12289 0) true 0).length = 12297 ∧
    (mux_encode 2 (List.replicate 12289 0) true 0).drop 8 = List.replicate 12289 0 := by
  constructor
  · rw [mux_encode_length, List.length_replicate]
  · exact mux_encode_drop8 2 (List.replicate 12289 0) true 0

/-- Claim C8 (amended): `mux_encode` never splits.  Every payload — 12288
bytes, 12289 bytes, or any other size — produces exactly one frame: an
8-byte header followed by the entire payload. -/
theorem C8_single_frame (pid : Nat) (payload : List Nat) (i : Bool) (t : Nat) :
    (mux_encode pid payload i t).length = 8 + payload.length ∧
    (mux_encode pid payload i t).take 8 =
      beBytes4 (t % 2 ^ 32)
        ++ beBytes2 (((pid % 2 ^ 15) * 2 + (if i then 0 else 1)) % 2 ^ 16)
        ++ beBytes2 (payload.length % 2 ^ 16) ∧
    (mux_encode pid payload i t).drop 8 = payload :=
  ⟨mux_encode_length pid payload i t, mux_encode_take8 pid payload i t,
    mux_encode_drop8 pid payload i t⟩

/-- Claim C10: for every payload longer than 65535 bytes, `mux_encode`
produces a single frame whose 16-bit length field is the payload length
mod 2^16 — strictly less than the number of bytes actually carried — and
the whole payload still follows the header; no error is raised. -/
theorem C10_mux_length_overflow (pid : Nat) (payload : List Nat)
    (hpid : pid < 2 ^ 15) (hlen : payload.length > 65535) :
    mux_decode_header ((mux_encode pid payload true 0).take 8) =
      some (0, pid, true, payload.length % 2 ^ 16) ∧
    (mux_encode pid payload true 0).drop 8 = payload ∧
    payload.length % 2 ^ 16 < payload.length := by
  refine ⟨mux_decode_header_encode pid payload hpid, mux_encode_drop8 pid payload true 0, ?_⟩
  have h := Nat.mod_lt payload.length (show 0 < 2 ^ 16 by norm_num)
  omega

/-- Witness for C10 at a payload of 65537 zero bytes: the declared length
field is 1. -/
theorem C10_mux_length_overflow_witness :
    mux_decode_header ((mux_encode 2 (List.replicate 65537 0) true 0).take 8) =
      some (0, 2, true, 1) := by
  have h := (C10_mux_length_overflow 2 (List.replicate 65537 0) (by decide)
    (by rw [List.length_replicate]; decide)).1
  rw [List.length_replicate] at h
  norm_num at h
  exact h

/-! ## Claims about page ordering -/

/-- Counterexample to claim C4: ties on *equal indices* do not fall back
to lexicographic `asset_name`.  Two pages with index 0 and names `"b"`,
`"a"` (in that input order) stay in input order after sorting — the key
for an indexed page is `(0, index)` alone — although `"a" < "b"`. -/
theorem C4_counterexample :
    sort_pages [⟨⟨"p", "b", []⟩, some 0, none, []⟩, ⟨⟨"p", "a", []⟩, some 0, none, []⟩] =
      [⟨⟨"p", "b", []⟩, some 0, none, []⟩, ⟨⟨"p", "a", []⟩, some 0, none, []⟩] ∧
    ("a" : String) < "b" := by
  constructor
  · rfl
  · rw [String.lt_iff_toList_lt]
    decide

/-- Claim C4 (amended): `sort_pages` orders pages by the key
`(0, index)` / `(1, asset_name)` — index is the primary key when present,
pages with no index sort after all indexed pages and tie-break on
`asset_name` — the sort is a permutation, it is idempotent, and it is
stable: within each key class (in particular among pages with *equal*
indices) the input order is preserved rather than re-sorted by name. -/
theorem C4_sort_pages_spec (l : List Cip25Page) :
    List.Sorted pageLe (sort_pages l) ∧
    sort_pages (sort_pages l) = sort_pages l ∧
    (sort_pages l).Perm l ∧
    ∀ k : Int ⊕ String,
      (sort_pages l).filter (fun q => decide (page_key q = k)) =
        l.filter (fun q => decide (page_key q = k)) := by
  refine ⟨List.sorted_insertionSort pageLe l, ?_, List.perm_insertionSort pageLe l,
    key_filter_sort_pages l⟩
  exact (List.sorted_insertionSort pageLe l).insertionSort_eq

/-! ## Claims about asset classification -/

/-- The single-asset unfolding of `classify_assets`. -/
theorem classify_assets_singleton (rt : Runtime) (a : Cip25Asset) (ma : Option String) :
    classify_assets rt [a] ma =
      if is_manifest_check ma a then ([], some (build_manifest rt a))
      else ([build_page a], none) := by
  unfold classify_assets
  simp only [List.foldl_cons, List.foldl_nil]
  by_cases h : is_manifest_check ma a <;> simp [h]

/-- Counterexample to claim C2: with a *declared* manifest name `"M"`, an
asset named `"A"` whose fields contain the key `"codec"` is NOT classified
as a manifest — the key-based test only runs when no manifest name was
declared — and the record becomes a page. -/
theorem C2_counterexample :
    classify_assets rtFail [⟨"p", "A", [("codec", .text "gzip")]⟩] (some "M") =
      ([⟨⟨"p", "A", [("codec", .text "gzip")]⟩, none, none, []⟩], none) := by
  rfl

/-- Claim C2 (amended): an asset is classified as a manifest iff either
(i) a non-empty manifest name was declared and the asset bears exactly
that name, or (ii) *no* manifest name was declared and one of the keys
`codec`, `content_type`, `content-type`, `sha256`, `sha`, `sha256_gz`,
`sha_gz` is present in its fields; every non-manifest asset becomes a
page. -/
theorem C2_classify_manifest_iff (rt : Runtime) (a : Cip25Asset) (ma : Option String) :
    ((classify_assets rt [a] ma).2.isSome ↔
      (∃ m, ma = some m ∧ m ≠ "" ∧ a.asset_name = m) ∨
        (ma = none ∧ ∃ k ∈ manifest_keys, (fieldsGet a.fields k).isSome)) ∧
    ((classify_assets rt [a] ma).2.isSome → (classify_assets rt [a] ma).1 = []) ∧
    (¬ (classify_assets rt [a] ma).2.isSome →
      (classify_assets rt [a] ma).1 = [build_page a]) := by
  rw [classify_assets_singleton]
  by_cases h : is_manifest_check ma a = true
  · rw [if_pos h]
    refine ⟨?_, fun _ => rfl, fun hn => absurd rfl hn⟩
    simp only [Option.isSome_some, true_iff]
    cases ma with
    | some m =>
      simp only [is_manifest_check, Bool.and_eq_true, decide_eq_true_eq, beq_iff_eq] at h
      exact Or.inl ⟨m, rfl, h.1, h.2⟩
    | none =>
      simp only [is_manifest_check, List.any_eq_true] at h
      obtain ⟨k, hk, hks⟩ := h
      exact Or.inr ⟨rfl, k, hk, hks⟩
  · rw [if_neg h]
    refine ⟨?_, fun hs => absurd hs (by simp), fun _ => rfl⟩
    simp only [Option.isSome_none, Bool.false_eq_true, false_iff]
    rintro (⟨m, hma, hne, hname⟩ | ⟨hma, k, hk, hks⟩)
    · subst hma
      exact h (by
        simp only [is_manifest_check, Bool.and_eq_true, decide_eq_true_eq, beq_iff_eq]
        exact ⟨hne, hname⟩)
    · subst hma
      exact h (by
        simp only [is_manifest_check, List.any_eq_true]
        exact ⟨k, hk, hks⟩)

/-- Counterexample to claim C6: a hex segment carrying a `0x` prefix is
not accepted — `bytes.fromhex` fails on it and the `except: pass` drops
the segment silently, so the page is produced with *no* segments and no
error is reported. -/
theorem C6_counterexample :
    classify_assets rtFail [⟨"p", "A", [("payload", .arr [.text "0xab"])]⟩] none =
      ([⟨⟨"p", "A", [("payload", .arr [.text "0xab"])]⟩, none, none, []⟩], none) := by
  rfl

/-- Claim C6 (amended): a page's segments are the `bytes.fromhex`-decoded
hex strings and pass-through raw bytes of its payload list; a segment that
fails to decode (odd length, non-hex characters, or a `0x` prefix — which
is *not* stripped) is silently dropped rather than reported as an error;
hex digits are accepted in either case with single spaces allowed between
byte pairs. -/
theorem C6_payload_normalization (rt : Runtime) (ma : Option String) (a : Cip25Asset)
    (items : List Cbor)
    (hnm : is_manifest_check ma a = false)
    (hp : pyOr (fieldsGet a.fields "payload")
      (pyOr (fieldsGet a.fields "segments") (fieldsGet a.fields "seg")) =
        some (.arr items)) :
    (classify_assets rt [a] ma).1.map Cip25Page.payload_segments =
      [items.filterMap seg_decode] ∧
    (∀ b, seg_decode (.bytes b) = some b) ∧
    bytes_fromhex "1f 8B" = some [31, 139] ∧
    bytes_fromhex "0x1f" = none ∧
    bytes_fromhex "1f8" = none := by
  refine ⟨?_, fun b => rfl, by rfl, by rfl, by rfl⟩
  rw [classify_assets_singleton, if_neg (by simp [hnm])]
  simp only [List.map_cons, List.map_nil, List.cons.injEq, and_true]
  unfold build_page
  rw [hp]

/-- Witness for C6 at a payload mixing raw bytes, a decodable hex string
and an undecodable one: the bad segment is dropped, the others decode. -/
theorem C6_payload_normalization_witness :
    (classify_assets rtFail
      [⟨"p", "A", [("payload", .arr [.bytes [1], .text "0d0a", .text "zz"])]⟩] none).1.map
        Cip25Page.payload_segments = [[[1], [13, 10]]] := by
  have h := (C6_payload_normalization rtFail none
    ⟨"p", "A", [("payload", .arr [.bytes [1], .text "0d0a", .text "zz"])]⟩
    [.bytes [1], .text "0d0a", .text "zz"] (by rfl) (by rfl)).1
  rw [h]
  rfl

/-! ## Claims about scroll reconstruction -/

/-- Counterexample to claim C3: with `codec = "gzip"`, page bytes
`1F 8B` that fail to decompress, and a mismatching `sha256_gz` (`"ff"`
against the computed `"00"`), the reconstruction reports the *gzip
decompression* failure, not the gzip-hash integrity failure —
`maybe_gunzip` runs before the `sha256_gz` assertion. -/
theorem C3_counterexample :
    reconstruct_cip25 rtFail [⟨⟨"p", "P1", []⟩, some 0, none, [[0x1F, 0x8B]]⟩]
        (some ⟨⟨"p", "M", []⟩, some "gzip", none, none, none, some "ff"⟩) "out" =
      .error .gzipFailed ∧
    rtFail.sha256_hex (reconstruct_pages [⟨⟨"p", "P1", []⟩, some 0, none, [[0x1F, 0x8B]]⟩]) ≠
      "ff" ∧
    RErr.gzipFailed ≠ RErr.integrityGz := by
  refine ⟨rfl, by decide, by decide⟩

/-- Claim C3 (amended): the `sha256_gz` equality *is* asserted against the
concatenated page bytes, but only after decompression has been attempted:
whenever `maybe_gunzip` succeeds (or is skipped) and the hash of the
concatenated bytes differs from the manifest's non-empty `sha256_gz`
(lower-cased), the reconstruction fails with the gzip-hash integrity
error.  When decompression itself fails, that failure is reported
instead. -/
theorem C3_gz_hash_after_decompress (rt : Runtime) (pages : List Cip25Page)
    (m : Cip25Manifest) (name : String) (decoded : List Nat) (cu : Option String)
    (s : String)
    (hok : maybe_gunzip rt (reconstruct_pages pages) m.codec = .ok (decoded, cu))
    (hgz : m.sha256_gz = some s) (hne : s ≠ "")
    (hmis : rt.sha256_hex (reconstruct_pages pages) ≠ rt.strLower s) :
    reconstruct_cip25 rt pages (some m) name = .error .integrityGz := by
  unfold reconstruct_cip25
  rw [Option.some_bind, hok]
  have hcond : (optStrTruthy ((some m).bind Cip25Manifest.sha256_gz) &&
      (rt.sha256_hex (reconstruct_pages pages) !=
        rt.strLower (((some m).bind Cip25Manifest.sha256_gz).getD ""))) = true := by
    rw [Option.some_bind, hgz]
    simp [optStrTruthy, hne, bne_iff_ne, hmis]
  show (if _ = true then _ else _) = _
  rw [if_pos hcond]

/-- Witness for C3 (amended) at a non-gzip page `[1]` and a manifest whose
`sha256_gz` is `"ff"` while the hash evaluates to `"00"`. -/
theorem C3_gz_hash_after_decompress_witness :
    reconstruct_cip25 rtFail [⟨⟨"p", "P1", []⟩, some 0, none, [[1]]⟩]
        (some ⟨⟨"p", "M", []⟩, none, none, none, none, some "ff"⟩) "out" =
      .error .integrityGz :=
  C3_gz_hash_after_decompress rtFail [⟨⟨"p", "P1", []⟩, some 0, none, [[1]]⟩]
    ⟨⟨"p", "M", []⟩, none, none, none, none, some "ff"⟩ "out" [1] none "ff"
    rfl rfl (by decide) (by exact (by decide : ("00" : String) ≠ "ff"))

/-- Counterexample to claim C5: two distinct pages with the same index 0
do not make the reconstruction fail — there is no duplicate-index check
anywhere — and the output is the concatenation of both pages' segments in
input order. -/
theorem C5_counterexample :
    reconstruct_cip25 rtFail
        [⟨⟨"p", "A", []⟩, some 0, none, [[1]]⟩, ⟨⟨"p", "B", []⟩, some 0, none, [[2]]⟩]
        none "out" =
      .ok ⟨"out", none, none, [1, 2], "00"⟩ := by
  rfl

/-- Claim C5 (amended): duplicate page indices are not detected.
`reconstruct_pages` is total — it never raises — and two pages with the
same index contribute their segments in input order (stable sort). -/
theorem C5_dup_index_concat (p1 p2 : Cip25Page) (i : Int)
    (h1 : p1.index = some i) (h2 : p2.index = some i) :
    reconstruct_pages [p1, p2] =
      p1.payload_segments.flatten ++ p2.payload_segments.flatten := by
  unfold reconstruct_pages sort_pages
  have hle : pageLe p1 p2 := by
    unfold pageLe page_key
    rw [h1, h2]
    exact le_refl i
  simp [List.insertionSort, List.orderedInsert, if_pos hle]

/-- Witness for C5 (amended) at two index-0 pages with segments `[1]` and
`[2]`. -/
theorem C5_dup_index_concat_witness :
    reconstruct_pages
        [⟨⟨"p", "A", []⟩, some 0, none, [[1]]⟩, ⟨⟨"p", "B", []⟩, some 0, none, [[2]]⟩] =
      [1, 2] := by
  have h := C5_dup_index_concat ⟨⟨"p", "A", []⟩, some 0, none, [[1]]⟩
    ⟨⟨"p", "B", []⟩, some 0, none, [[2]]⟩ 0 rfl rfl
  rw [h]
  rfl

/-! ## Claims about the block parser -/

/-- Counterexample to claim C9: an input whose CBOR decoding *succeeds*
(to the integer 7) but whose shape holds no block makes `parse_block`
raise `ValueError("unrecognized block structure")` instead of returning a
partial block; moreover `ParsedBlock` retains no raw CBOR at all. -/
theorem C9_counterexample :
    rtInt7.cborLoads [7] = some (.int 7) ∧
    parse_block rtInt7 [7] = .error .unrecognized := by
  exact ⟨rfl, rfl⟩

/-- Claim C9 (amended): on an input whose CBOR decoding succeeds,
`parse_block` raises exactly when it cannot locate a block (the decoded
value is not a list, is an empty list, is a bare `[era]` list, or holds a
null block slot); whenever a block is located — however malformed — the
parser is total and returns the partially extracted block. -/
theorem C9_parse_block_tolerant (rt : Runtime) (raw : List Nat) (obj : Cbor)
    (h : rt.cborLoads raw = some obj) :
    (parse_block rt raw = .error .unrecognized ↔
      (locate_block2 rt (unwrap_cbor rt obj)).2 = none) ∧
    (∀ b, (locate_block2 rt (unwrap_cbor rt obj)).2 = some b →
      parse_block rt raw = .ok
        { era := (locate_block2 rt (unwrap_cbor rt obj)).1
          txs := (List.range (block_tx_bodies b).length).map (fun i =>
            { index := i
              metadata :=
                extract_metadata_map rt (asPyNone (assocGetInt (block_aux_map b) i)) })
          tx_bodies := block_tx_bodies b }) := by
  have hpb : parse_block rt raw = parse_blockAux rt obj := by
    unfold parse_block
    rw [h]
  rw [hpb]
  unfold parse_blockAux
  cases hb : (locate_block2 rt (unwrap_cbor rt obj)).2 with
  | none =>
    exact ⟨by simp, fun b hb' => by cases hb'⟩
  | some blk =>
    refine ⟨by simp, fun b hb' => ?_⟩
    cases hb'
    rfl

/-- Witness for C9 (amended): an input decoding to the singleton list
`["x"]` locates the (malformed) block `"x"` and the parser returns the
empty partial block without raising. -/
theorem C9_parse_block_tolerant_witness :
    parse_block rtArrX [1] = .ok ⟨none, [], []⟩ := by
  have h := (C9_parse_block_tolerant rtArrX [1] (.arr [.text "x"]) rfl).2 (.text "x") rfl
  exact h

/-! ## Claim about the inline-datum path -/

/-- A transaction body with one output whose third element is the inline
datum pair `[2, bytes [1, 2, 3]]`. -/
def c1txbody : Cbor :=
  .arr [.null, .arr [.arr [.null, .null, .arr [.int 2, .bytes [1, 2, 3]]]]]

/-- Claim C1: the inline-datum reconstruction of `cmd_reconstruct_utxo`
performs *no* hash verification.  Whatever the catalog entry's `sha256`
says — here including the mismatching `"deadbeef"` — the command succeeds
and hands back the datum bytes for writing, printing a Blake2b-256 digest
under the label `SHA-256:`; the source never reads
`entry.data["sha256"]`. -/
theorem C1_no_hash_check :
    (∀ expected : Option String,
      cmd_reconstruct_utxo_core rtFail expected ⟨none, [], [c1txbody]⟩ none 0 =
        .ok ([1, 2, 3], "b2")) ∧
    rtFail.sha256_hex [1, 2, 3] ≠ "deadbeef" ∧
    rtFail.blake2b_hex [1, 2, 3] = "b2" := by
  refine ⟨fun expected => rfl, by decide, rfl⟩

end LedgerScrolls
